import Mathlib

/-!
Shallow embedding of `src/standardize_data.py` (module `standardize_data`),
a pandas-based cleaner of galaxy-substructure tables.

A table is a list of rows; the pandas DataFrame produced by `pd.read_csv`
carries the default `RangeIndex 0..n-1`, and every transform in the source
addresses rows through those integer labels, which stay in bijection with
list positions until the final `set_index('CName')`.  So `List Row` with
positional access is a faithful model of the DataFrame as the source uses it.
The numeric radius column `R` is modelled as `ℚ`.
-/

structure Row where
  cname : String
  region : String
  r : ℚ
deriving DecidableEq, Repr

instance : Inhabited Row := ⟨⟨"", "", 0⟩⟩

/-- `startsWithChars pat l` : `pat` is a prefix of `l` (character lists). -/
def startsWithChars : List Char → List Char → Bool
  | [], _ => true
  | _ :: _, [] => false
  | p :: ps, c :: cs => p == c && startsWithChars ps cs

/-- `containsSub pat l` : `pat` occurs as a contiguous substring of `l`.
Models Python `pat in s` on strings. -/
def containsSub (pat : List Char) : List Char → Bool
  | [] => startsWithChars pat []
  | c :: cs => startsWithChars pat (c :: cs) || containsSub pat cs

/-- Python `pat in s` (substring containment, case-sensitive). -/
def strContains (s pat : String) : Bool :=
  containsSub pat.toList s.toList

/-- Python `re.match(r"c\d", s)`: `re.match` is anchored at the start of the
string, so it succeeds exactly when the first character is `c` and the second
is a decimal digit. -/
def matchesCDigit (s : String) : Bool :=
  match s.toList with
  | 'c' :: d :: _ => d.isDigit
  | _ => false

/-- The per-row rule chain of `standardize_region_names`
(src/standardize_data.py lines 139-161): ordered, first-match-wins. -/
def standardize_region (s : String) : String :=
  if strContains s "co" then "core"
  else if strContains s "ce" then "center"
  else if strContains s "outsk" || strContains s "ot" then "outsk"
  else if strContains s "ic" then "icl"
  else if matchesCDigit s then "core"
  else if strContains s "ou" then "outer"
  else "other"

/-- `standardize_region_names` (src/standardize_data.py lines 123-163):
loops over row indices `0..n-1` rewriting each row's `Region` in place;
each iteration touches only its own row, so it is a per-row map. -/
def standardize_region_names (data : List Row) : List Row :=
  data.map fun row => { row with region := standardize_region row.region }

/-- Python `s[-3:]`: the last three characters, or all of `s` when shorter. -/
def lastThree (s : String) : String :=
  ⟨s.toList.drop (s.toList.length - 3)⟩

/-- Python `s[:-3]`: everything but the last three characters
(empty when `s` has at most three characters). -/
def dropLastThree (s : String) : String :=
  ⟨s.toList.take (s.toList.length - 3)⟩

/-- The per-row body of `standardize_CNames`
(src/standardize_data.py lines 110-119). -/
def standardize_CName (s : String) : String :=
  if lastThree s = "reg" then dropLastThree s else s

/-- `standardize_CNames` (src/standardize_data.py lines 97-121): loops over
row indices `0..n-1`, stripping a trailing `"reg"` from each row's `CName`;
each iteration touches only its own row, so it is a per-row map. -/
def standardize_CNames (data : List Row) : List Row :=
  data.map fun row => { row with cname := standardize_CName row.cname }

/-- Indices of the rows of galaxy `name` whose `Region` is exactly `"core"`:
the row labels of `temp_df = new_df[(new_df["CName"] == name) &
(new_df["Region"] == "core")]` (src/standardize_data.py lines 70-71), in
ascending label order as pandas boolean filtering keeps them. -/
def coreIdxs (data : List Row) (name : String) : List Nat :=
  (List.range data.length).filter fun i =>
    ((data.getD i default).cname == name) && ((data.getD i default).region == "core")

/-- The assignment loop of `fix_mult_core` (src/standardize_data.py lines
83-85): `new_df.loc[temp_df.loc[index, "index"], "Region"] = "core" +
chr(ord('A') + index)`.  `k` is the running letter offset (the loop's
`index`), `idxs` the remaining original row labels from `temp_df`.  Note the
source's `temp_df.sort_values(by="R")` on line 77 discards its result (no
assignment, no `inplace=True`), so `temp_df` — and hence `idxs` — stays in
original row order, not radius order. -/
def assignLetters : List Row → List Nat → Nat → List Row
  | d, [], _ => d
  | d, i :: rest, k =>
      assignLetters
        (d.set i { d.getD i default with
                   region := "core".push (Char.ofNat ('A'.toNat + k)) })
        rest (k + 1)

/-- One iteration of the galaxy loop of `fix_mult_core`
(src/standardize_data.py lines 66-93) for galaxy `name`. -/
def relabelGalaxy (d : List Row) (name : String) : List Row :=
  if (coreIdxs d name).length > 1 then assignLetters d (coreIdxs d name) 0 else d

/-- `new_df.CName.unique()` (src/standardize_data.py line 64): distinct
values in order of first appearance. -/
def uniqueNames (l : List String) : List String :=
  l.foldl (fun acc x => if x ∈ acc then acc else acc ++ [x]) []

/-- `fix_mult_core` (src/standardize_data.py lines 51-95). The `>26`-cores
branch only prints a warning and changes no data, so it has no effect on the
table and is omitted. -/
def fix_mult_core (data : List Row) : List Row :=
  (uniqueNames (data.map Row.cname)).foldl relabelGalaxy data

inductive LoadError where
  | parseFailure
  | missingColumns
deriving DecidableEq, Repr

instance {ε α : Type} [DecidableEq ε] [DecidableEq α] : DecidableEq (Except ε α)
  | .error e, .error f =>
      if h : e = f then .isTrue (by rw [h])
      else .isFalse (by intro hh; cases hh; exact h rfl)
  | .error _, .ok _ => .isFalse (by intro h; cases h)
  | .ok _, .error _ => .isFalse (by intro h; cases h)
  | .ok a, .ok b =>
      if h : a = b then .isTrue (by rw [h])
      else .isFalse (by intro hh; cases hh; exact h rfl)

/-- A raw tabular source: either unparsable (`none`) or a header row of
column names together with the data rows. -/
structure RawSource where
  parsed : Option (List String × List Row)

/-- Modelled from the spec: reading the delimited file into an in-memory
table (`pd.read_csv`, an external collaborator not under src/) "fails with a
LoadError-kind condition if the source cannot be parsed into the expected
tabular shape (columns `CName`, `Region`, `R` must exist)". -/
def read_csv (src : RawSource) : Except LoadError (List Row) :=
  match src.parsed with
  | none => .error .parseFailure
  | some (cols, rows) =>
      if "CName" ∈ cols ∧ "Region" ∈ cols ∧ "R" ∈ cols then .ok rows
      else .error .missingColumns

/-- `set_index('CName')` turns `CName` into the table's lookup key; looking
the re-keyed table up by a name yields the rows carrying that name. -/
def lookupCName (data : List Row) (name : String) : List Row :=
  data.filter fun row => row.cname == name

/-- `fix_data` (src/standardize_data.py lines 18-49): load, then the three
transforms in order, then re-key by `CName`.  Nothing is caught: any load
failure propagates to the caller. -/
def fix_data (src : RawSource) : Except LoadError (List Row) :=
  match read_csv src with
  | .error e => .error e
  | .ok std_data =>
      .ok (standardize_CNames (fix_mult_core (standardize_region_names std_data)))

theorem lastThree_eq_reg_iff (s : String) :
    lastThree s = "reg" ↔ "reg".toList <:+ s.toList := by
  constructor
  · intro h
    have hd : s.toList.drop (s.toList.length - 3) = "reg".toList := congrArg String.toList h
    rw [← hd]
    exact List.drop_suffix _ _
  · rintro ⟨p, hp⟩
    have hlen : s.toList.length - 3 = p.length := by
      rw [← hp]
      simp
    unfold lastThree
    rw [hlen, ← hp, List.drop_left]
    rfl

theorem standardize_CName_of_suffix (s : String) (p : List Char)
    (hp : p ++ "reg".toList = s.toList) : (standardize_CName s).toList = p := by
  have hlast : lastThree s = "reg" := (lastThree_eq_reg_iff s).2 ⟨p, hp⟩
  have hlen : s.toList.length - 3 = p.length := by
    rw [← hp]
    simp
  unfold standardize_CName
  rw [if_pos hlast]
  show s.toList.take (s.toList.length - 3) = p
  rw [hlen, ← hp, List.take_left]

theorem standardize_CName_of_not_suffix (s : String)
    (h : ¬ "reg".toList <:+ s.toList) : standardize_CName s = s := by
  unfold standardize_CName
  rw [if_neg]
  intro hlast
  exact h ((lastThree_eq_reg_iff s).1 hlast)

theorem getD_set_ne (d : List Row) (i j : Nat) (v : Row) (h : i ≠ j) :
    (d.set i v).getD j default = d.getD j default := by
  simp [List.getD_eq_getElem?_getD, List.getElem?_set, h]

theorem getD_set_region_cname_r (d : List Row) (i j : Nat) (s : String) :
    ((d.set i { d.getD i default with region := s }).getD j default).cname
        = (d.getD j default).cname
    ∧ ((d.set i { d.getD i default with region := s }).getD j default).r
        = (d.getD j default).r := by
  by_cases hij : i = j
  · subst hij
    by_cases hb : i < d.length
    · simp [List.getD_eq_getElem?_getD, List.getElem?_set, hb]
    · have hnone : d[i]? = none := List.getElem?_eq_none (by omega)
      simp [List.getD_eq_getElem?_getD, List.getElem?_set, hb, hnone]
  · rw [getD_set_ne d i j _ hij]
    exact ⟨rfl, rfl⟩

theorem length_assignLetters (idxs : List Nat) (k : Nat) (d : List Row) :
    (assignLetters d idxs k).length = d.length := by
  induction idxs generalizing d k with
  | nil => rfl
  | cons i rest ih => rw [assignLetters, ih, List.length_set]

theorem assignLetters_cname_r (idxs : List Nat) (k : Nat) (d : List Row) (j : Nat) :
    ((assignLetters d idxs k).getD j default).cname = (d.getD j default).cname
    ∧ ((assignLetters d idxs k).getD j default).r = (d.getD j default).r := by
  induction idxs generalizing d k with
  | nil => exact ⟨rfl, rfl⟩
  | cons i rest ih =>
      rw [assignLetters]
      have hstep := getD_set_region_cname_r d i j
        ("core".push (Char.ofNat ('A'.toNat + k)))
      have hrec := ih (k + 1)
        (d.set i { d.getD i default with
                   region := "core".push (Char.ofNat ('A'.toNat + k)) })
      exact ⟨hrec.1.trans hstep.1, hrec.2.trans hstep.2⟩

theorem assignLetters_untouched (idxs : List Nat) (k : Nat) (d : List Row) (j : Nat)
    (h : ∀ i ∈ idxs, i ≠ j) :
    (assignLetters d idxs k).getD j default = d.getD j default := by
  induction idxs generalizing d k with
  | nil => rfl
  | cons i rest ih =>
      rw [assignLetters]
      rw [ih (k + 1) _ fun x hx => h x (List.mem_cons_of_mem i hx)]
      exact getD_set_ne d i j _ (h i (List.mem_cons_self i rest))

theorem mem_coreIdxs (d : List Row) (name : String) (i : Nat) :
    i ∈ coreIdxs d name
      ↔ i < d.length ∧ (d.getD i default).cname = name
          ∧ (d.getD i default).region = "core" := by
  unfold coreIdxs
  simp [List.mem_filter, List.mem_range, and_assoc]

theorem length_relabelGalaxy (d : List Row) (name : String) :
    (relabelGalaxy d name).length = d.length := by
  unfold relabelGalaxy
  split
  · exact length_assignLetters _ _ _
  · rfl

theorem relabelGalaxy_cname_r (d : List Row) (name : String) (j : Nat) :
    ((relabelGalaxy d name).getD j default).cname = (d.getD j default).cname
    ∧ ((relabelGalaxy d name).getD j default).r = (d.getD j default).r := by
  unfold relabelGalaxy
  split
  · exact assignLetters_cname_r _ _ _ _
  · exact ⟨rfl, rfl⟩

theorem relabelGalaxy_untouched (d : List Row) (name : String) (j : Nat)
    (h : (d.getD j default).cname ≠ name) :
    (relabelGalaxy d name).getD j default = d.getD j default := by
  unfold relabelGalaxy
  split
  · apply assignLetters_untouched
    intro i hi hij
    subst hij
    exact h ((mem_coreIdxs d name i).1 hi).2.1
  · rfl

theorem relabelGalaxy_of_le_one (d : List Row) (name : String)
    (h : (coreIdxs d name).length ≤ 1) : relabelGalaxy d name = d := by
  unfold relabelGalaxy
  rw [if_neg]
  omega

theorem coreIdxs_relabelGalaxy_ne (d : List Row) (name name2 : String)
    (h : name2 ≠ name) :
    coreIdxs (relabelGalaxy d name) name2 = coreIdxs d name2 := by
  unfold coreIdxs
  rw [length_relabelGalaxy]
  apply List.filter_congr
  intro i _
  by_cases hc : (d.getD i default).cname = name
  · have hcn := (relabelGalaxy_cname_r d name i).1
    have ha : ((d.getD i default).cname == name2) = false :=
      beq_eq_false_iff_ne.2 fun hh => h (hc ▸ hh).symm
    rw [hcn, ha]
    simp
  · rw [relabelGalaxy_untouched d name i hc]

theorem foldl_relabel_length (L : List String) (d : List Row) :
    (L.foldl relabelGalaxy d).length = d.length := by
  induction L generalizing d with
  | nil => rfl
  | cons name L ih =>
      rw [List.foldl_cons, ih, length_relabelGalaxy]

theorem foldl_relabel_cname_r (L : List String) (d : List Row) (j : Nat) :
    ((L.foldl relabelGalaxy d).getD j default).cname = (d.getD j default).cname
    ∧ ((L.foldl relabelGalaxy d).getD j default).r = (d.getD j default).r := by
  induction L generalizing d with
  | nil => exact ⟨rfl, rfl⟩
  | cons name L ih =>
      rw [List.foldl_cons]
      have hstep := relabelGalaxy_cname_r d name j
      have hrec := ih (relabelGalaxy d name)
      exact ⟨hrec.1.trans hstep.1, hrec.2.trans hstep.2⟩

theorem foldl_relabel_untouched (L : List String) (d : List Row) (j : Nat)
    (h : (coreIdxs d (d.getD j default).cname).length ≤ 1) :
    (L.foldl relabelGalaxy d).getD j default = d.getD j default := by
  induction L generalizing d with
  | nil => rfl
  | cons name L ih =>
      rw [List.foldl_cons]
      by_cases hn : (d.getD j default).cname = name
      · rw [relabelGalaxy_of_le_one d name (hn ▸ h)]
        exact ih d h
      · have hrow : (relabelGalaxy d name).getD j default = d.getD j default :=
          relabelGalaxy_untouched d name j hn
        have hidx : coreIdxs (relabelGalaxy d name) (d.getD j default).cname
            = coreIdxs d (d.getD j default).cname :=
          coreIdxs_relabelGalaxy_ne d name _ hn
        have := ih (relabelGalaxy d name) (by rw [hrow, hidx]; exact h)
        rw [this, hrow]

theorem fix_mult_core_cname_r (data : List Row) (j : Nat) :
    ((fix_mult_core data).getD j default).cname = (data.getD j default).cname
    ∧ ((fix_mult_core data).getD j default).r = (data.getD j default).r :=
  foldl_relabel_cname_r _ data j

theorem length_fix_mult_core (data : List Row) :
    (fix_mult_core data).length = data.length :=
  foldl_relabel_length _ data

/-- C2: the region canonicalizer applies the ordered first-match rule chain to
every row's raw `Region` text, always producing one of the six canonical
labels; in particular `"outskirts" → "outsk"`, `"c3" → "core"`,
`"center-ish" → "center"`, `"ounknown" → "outer"`, `"xyz" → "other"`. -/
theorem C2_region_canonicalization :
    (∀ data : List Row, ∀ i : Nat,
        (standardize_region_names data)[i]?
          = (data[i]?).map fun row => { row with region := standardize_region row.region })
    ∧ (∀ s : String,
        standardize_region s
          ∈ (["core", "center", "outsk", "icl", "outer", "other"] : List String))
    ∧ standardize_region "outskirts" = "outsk"
    ∧ standardize_region "c3" = "core"
    ∧ standardize_region "center-ish" = "center"
    ∧ standardize_region "ounknown" = "outer"
    ∧ standardize_region "xyz" = "other" := by
  refine ⟨?_, ?_, by decide, by decide, by decide, by decide, by decide⟩
  · intro data i
    simp [standardize_region_names]
  · intro s
    unfold standardize_region
    split_ifs <;> decide

/-- C4 counterexample: `"other"` is not a fixed point of the region rule set —
it contains the substring `"ot"`, so rule 3 rewrites it to `"outsk"`. -/
theorem C4_counterexample :
    standardize_region "other" = "outsk" ∧ standardize_region "other" ≠ "other" := by
  decide

/-- C4 amended: of the six canonical labels, the five labels `"core"`,
`"center"`, `"outer"`, `"outsk"`, `"icl"` are fixed points of the region
canonicalization rule set, but `"other"` is not: it contains `"ot"` and is
rewritten to `"outsk"` by rule 3. -/
theorem C4_fixed_points :
    standardize_region "core" = "core"
    ∧ standardize_region "center" = "center"
    ∧ standardize_region "outer" = "outer"
    ∧ standardize_region "outsk" = "outsk"
    ∧ standardize_region "icl" = "icl"
    ∧ standardize_region "other" = "outsk" := by
  decide

/-- C5: the identifier canonicalizer removes exactly a trailing `"reg"`
(the result concatenated with `"reg"` restores the original) and leaves every
`CName` without that suffix — including those shorter than three characters —
unchanged; in particular `"NGC1234reg" → "NGC1234"`, `"NGC1234"` unchanged,
`"reg" → ""`, `"ab"` unchanged. -/
theorem C5_cname_strip :
    (∀ s : String,
        (standardize_CName s).toList
            ++ (if "reg".toList <:+ s.toList then "reg".toList else []) = s.toList)
    ∧ (∀ data : List Row, ∀ i : Nat,
        (standardize_CNames data)[i]?
          = (data[i]?).map fun row => { row with cname := standardize_CName row.cname })
    ∧ standardize_CName "NGC1234reg" = "NGC1234"
    ∧ standardize_CName "NGC1234" = "NGC1234"
    ∧ standardize_CName "reg" = ""
    ∧ standardize_CName "ab" = "ab" := by
  refine ⟨?_, ?_, by decide, by decide, by decide, by decide⟩
  · intro s
    by_cases h : "reg".toList <:+ s.toList
    · obtain ⟨p, hp⟩ := h
      rw [if_pos ⟨p, hp⟩, standardize_CName_of_suffix s p hp, hp]
    · rw [if_neg h, standardize_CName_of_not_suffix s h, List.append_nil]
  · intro data i
    simp [standardize_CNames]

/-- C9: the `c`-digit pattern rule is anchored at the start of the string
(`re.match`), so a raw `Region` value on which no earlier rule fires and
whose first two characters are not `c` followed by a digit never resolves to
`"core"`: it falls through to the remaining rules (`"outer"` or `"other"`). -/
theorem C9_cdigit_anchored (s : String)
    (h1 : strContains s "co" = false) (h2 : strContains s "ce" = false)
    (h3 : strContains s "outsk" = false) (h4 : strContains s "ot" = false)
    (h5 : strContains s "ic" = false) (h6 : matchesCDigit s = false) :
    standardize_region s ≠ "core"
    ∧ (standardize_region s = "outer" ∨ standardize_region s = "other") := by
  unfold standardize_region
  rw [h1, h2, h3, h4, h5, h6]
  simp only [Bool.false_eq_true, if_false, Bool.or_self]
  by_cases h : strContains s "ou" = true
  · rw [if_pos h]
    exact ⟨by decide, Or.inl rfl⟩
  · rw [if_neg h]
    exact ⟨by decide, Or.inr rfl⟩

/-- C9 witness: `"xc3"` has a `c`-digit pair at a non-initial position, no
earlier rule fires, and it does not become `"core"`. -/
theorem C9_witness :
    standardize_region "xc3" ≠ "core"
    ∧ (standardize_region "xc3" = "outer" ∨ standardize_region "xc3" = "other") :=
  C9_cdigit_anchored "xc3" (by decide) (by decide) (by decide) (by decide)
    (by decide) (by decide)

/-- C1 (code bug): on a galaxy with core rows at radii `[5, 1, 3]`,
`fix_mult_core` labels the cores `coreA`, `coreB`, `coreC` in original row
order — the row with the smallest radius (`R = 1`) receives `"coreB"`, not
`"coreA"` — because line 77 of the source discards the result of
`sort_values` (no assignment, no `inplace=True`). -/
theorem C1_code_behavior :
    fix_mult_core [⟨"G", "core", 5⟩, ⟨"G", "core", 1⟩, ⟨"G", "core", 3⟩]
        = [⟨"G", "coreA", 5⟩, ⟨"G", "coreB", 1⟩, ⟨"G", "coreC", 3⟩]
    ∧ ((fix_mult_core [⟨"G", "core", 5⟩, ⟨"G", "core", 1⟩, ⟨"G", "core", 3⟩]).getD
          1 default).region ≠ "coreA" := by
  decide

/-- C3 (code bug): on the spec's end-to-end input the pipeline produces
regions `["coreA", "coreB", "outsk"]` — radius `2.0` gets `'A'` and radius
`1.0` gets `'B'`, the reverse of the claimed `["coreB", "coreA", "outsk"]` —
again because the radius sort in `fix_mult_core` is discarded.  The re-keying
part of the claim does hold: looking the result up by the cleaned `CName`
`"A1"` returns exactly the galaxy's rows. -/
theorem C3_code_behavior :
    fix_data ⟨some (["CName", "Region", "R"],
        [⟨"A1reg", "co", 2⟩, ⟨"A1reg", "co", 1⟩, ⟨"A1reg", "outsk", 5⟩])⟩
      = .ok [⟨"A1", "coreA", 2⟩, ⟨"A1", "coreB", 1⟩, ⟨"A1", "outsk", 5⟩]
    ∧ lookupCName [⟨"A1", "coreA", 2⟩, ⟨"A1", "coreB", 1⟩, ⟨"A1", "outsk", 5⟩] "A1"
      = [⟨"A1", "coreA", 2⟩, ⟨"A1", "coreB", 1⟩, ⟨"A1", "outsk", 5⟩] := by
  decide

theorem length_standardize_region_names (data : List Row) :
    (standardize_region_names data).length = data.length := by
  simp [standardize_region_names]

theorem length_standardize_CNames (data : List Row) :
    (standardize_CNames data).length = data.length := by
  simp [standardize_CNames]

theorem getD_default_of_le (l : List Row) (i : Nat) (h : l.length ≤ i) :
    l.getD i default = default := by
  simp [List.getD_eq_getElem?_getD, List.getElem?_eq_none h]

theorem getD_region_names_cname_r (data : List Row) (i : Nat) :
    ((standardize_region_names data).getD i default).cname = (data.getD i default).cname
    ∧ ((standardize_region_names data).getD i default).r = (data.getD i default).r := by
  simp only [standardize_region_names, List.getD_eq_getElem?_getD, List.getElem?_map]
  cases data[i]? <;> simp

theorem getD_CNames_region_r (data : List Row) (i : Nat) :
    ((standardize_CNames data).getD i default).region = (data.getD i default).region
    ∧ ((standardize_CNames data).getD i default).r = (data.getD i default).r := by
  simp only [standardize_CNames, List.getD_eq_getElem?_getD, List.getElem?_map]
  cases data[i]? <;> simp

theorem getD_CNames_cname (data : List Row) (i : Nat) (hb : i < data.length) :
    ((standardize_CNames data).getD i default).cname
      = standardize_CName ((data.getD i default).cname) := by
  simp only [standardize_CNames, List.getD_eq_getElem?_getD, List.getElem?_map,
    List.getElem?_eq_getElem hb]
  simp

theorem fix_data_error (src : RawSource) (e : LoadError)
    (h : read_csv src = .error e) : fix_data src = .error e := by
  unfold fix_data
  rw [h]

theorem fix_data_ok (src : RawSource) (rows : List Row)
    (h : read_csv src = .ok rows) :
    fix_data src
      = .ok (standardize_CNames (fix_mult_core (standardize_region_names rows))) := by
  unfold fix_data
  rw [h]

theorem strip_once_no_reg (s : String)
    (h : ¬ "regreg".toList <:+ s.toList) :
    ¬ "reg".toList <:+ (standardize_CName s).toList := by
  by_cases hs : "reg".toList <:+ s.toList
  · obtain ⟨p, hp⟩ := hs
    rw [standardize_CName_of_suffix s p hp]
    rintro ⟨q, hq⟩
    apply h
    refine ⟨q, ?_⟩
    have hsplit : ("regreg".toList : List Char) = "reg".toList ++ "reg".toList := by
      decide
    rw [hsplit, ← List.append_assoc, hq, hp]
  · rw [standardize_CName_of_not_suffix s hs]
    exact hs

/-- C6 counterexample: the identifier canonicalizer strips `"reg"` only once,
so the input `CName` `"Xregreg"` comes out of the pipeline as `"Xreg"`, which
still ends with the literal suffix `"reg"`. -/
theorem C6_counterexample :
    fix_data ⟨some (["CName", "Region", "R"], [⟨"Xregreg", "co", 1⟩])⟩
      = .ok [⟨"Xreg", "core", 1⟩]
    ∧ "reg".toList <:+ "Xreg".toList := by
  refine ⟨by decide, ?_⟩
  decide

/-- C6 amended: the pipeline removes a trailing `"reg"` suffix exactly once
per `CName`, so after the three transforms no `CName` ends with `"reg"`
unless the original `CName` ended with the doubled suffix `"regreg"`
(in which case one copy survives, e.g. `"Xregreg" → "Xreg"`). -/
theorem C6_single_strip (data : List Row) (i : Nat)
    (h : ¬ "regreg".toList <:+ ((data.getD i default).cname).toList) :
    ¬ "reg".toList <:+
      (((standardize_CNames (fix_mult_core (standardize_region_names data))).getD i
          default).cname).toList := by
  by_cases hb : i < data.length
  · have h1 := (getD_region_names_cname_r data i).1
    have h2 := (fix_mult_core_cname_r (standardize_region_names data) i).1
    have hb2 : i < (fix_mult_core (standardize_region_names data)).length := by
      rw [length_fix_mult_core, length_standardize_region_names]
      exact hb
    rw [getD_CNames_cname _ i hb2, h2, h1]
    exact strip_once_no_reg _ h
  · have hlen :
        (standardize_CNames (fix_mult_core (standardize_region_names data))).length
          ≤ i := by
      rw [length_standardize_CNames, length_fix_mult_core,
        length_standardize_region_names]
      omega
    rw [getD_default_of_le _ i hlen]
    decide

/-- C6 amended witness: a `CName` with a single `"reg"` suffix comes out of
the transforms no longer ending in `"reg"`. -/
theorem C6_witness :
    ¬ "reg".toList <:+
      (((standardize_CNames (fix_mult_core (standardize_region_names
          [⟨"A1reg", "co", 2⟩]))).getD 0 default).cname).toList :=
  C6_single_strip [⟨"A1reg", "co", 2⟩] 0 (by decide)

/-- C7: `fix_mult_core` never modifies any row's `CName` or `R`, and a row of
a galaxy whose `"core"` subset has at most one row is left completely
unchanged — in particular a single-core galaxy keeps `Region = "core"`
verbatim. -/
theorem C7_mult_core_frame (data : List Row) (i : Nat) :
    ((fix_mult_core data).getD i default).cname = (data.getD i default).cname
    ∧ ((fix_mult_core data).getD i default).r = (data.getD i default).r
    ∧ ((coreIdxs data (data.getD i default).cname).length ≤ 1 →
        (fix_mult_core data).getD i default = data.getD i default) :=
  ⟨(fix_mult_core_cname_r data i).1, (fix_mult_core_cname_r data i).2,
    fun h => foldl_relabel_untouched _ data i h⟩

/-- C7 witness: in a single-core galaxy the core row survives
`fix_mult_core` unchanged. -/
theorem C7_witness :
    (fix_mult_core [⟨"G", "core", 1⟩, ⟨"G", "outsk", 2⟩]).getD 0 default
      = ([⟨"G", "core", 1⟩, ⟨"G", "outsk", 2⟩] : List Row).getD 0 default :=
  (C7_mult_core_frame [⟨"G", "core", 1⟩, ⟨"G", "outsk", 2⟩] 0).2.2 (by decide)

/-- C8: the pipeline entry point fails exactly when the source cannot be
parsed into the expected tabular shape (unparsable input, or one of the
columns `CName`, `Region`, `R` absent); a load error propagates to the caller
uncaught, and on well-formed input the pipeline returns the transformed,
re-keyed table. -/
theorem C8_load_error (src : RawSource) :
    ((∃ e, fix_data src = .error e) ↔
        (src.parsed = none
          ∨ ∃ cols rows, src.parsed = some (cols, rows)
              ∧ ¬("CName" ∈ cols ∧ "Region" ∈ cols ∧ "R" ∈ cols)))
    ∧ (∀ e, read_csv src = .error e → fix_data src = .error e)
    ∧ (∀ cols rows, src.parsed = some (cols, rows) →
        ("CName" ∈ cols ∧ "Region" ∈ cols ∧ "R" ∈ cols) →
        fix_data src
          = .ok (standardize_CNames (fix_mult_core (standardize_region_names rows)))) := by
  obtain ⟨parsed⟩ := src
  cases parsed with
  | none =>
      refine ⟨⟨fun _ => Or.inl rfl, fun _ => ⟨.parseFailure, rfl⟩⟩, ?_, ?_⟩
      · intro e he
        exact fix_data_error _ e he
      · intro cols rows hsome
        exact absurd hsome (by simp)
  | some cr =>
      obtain ⟨cols, rows⟩ := cr
      by_cases hc : "CName" ∈ cols ∧ "Region" ∈ cols ∧ "R" ∈ cols
      · have hread : read_csv ⟨some (cols, rows)⟩ = .ok rows := by
          simp [read_csv, hc]
        refine ⟨⟨?_, ?_⟩, ?_, ?_⟩
        · rintro ⟨e, he⟩
          rw [fix_data_ok _ rows hread] at he
          exact Except.noConfusion he
        · rintro (hnone | ⟨c2, r2, hsome, hnot⟩)
          · exact Option.noConfusion hnone
          · have hpair : cols = c2 ∧ rows = r2 := by simpa using hsome
            exact absurd (hpair.1 ▸ hc) hnot
        · intro e he
          rw [hread] at he
          exact Except.noConfusion he
        · intro c2 r2 hsome _
          have hpair : cols = c2 ∧ rows = r2 := by simpa using hsome
          rw [← hpair.2]
          exact fix_data_ok _ rows hread
      · have hread : read_csv ⟨some (cols, rows)⟩ = .error .missingColumns := by
          simp [read_csv, hc]
        refine ⟨⟨fun _ => Or.inr ⟨cols, rows, rfl, hc⟩,
            fun _ => ⟨.missingColumns, fix_data_error _ _ hread⟩⟩, ?_, ?_⟩
        · intro e he
          exact fix_data_error _ e he
        · intro c2 r2 hsome hcols
          have hpair : cols = c2 ∧ rows = r2 := by simpa using hsome
          exact absurd (hpair.1 ▸ hcols) hc

/-- C8 witness: a parseable source with the three required columns goes
through the whole pipeline and returns the transformed table. -/
theorem C8_witness :
    fix_data ⟨some (["CName", "Region", "R"], [⟨"G", "co", 1⟩])⟩
      = .ok (standardize_CNames (fix_mult_core (standardize_region_names
          [⟨"G", "co", 1⟩]))) :=
  (C8_load_error ⟨some (["CName", "Region", "R"], [⟨"G", "co", 1⟩])⟩).2.2
    ["CName", "Region", "R"] [⟨"G", "co", 1⟩] rfl (by decide)

/-- C10: each of the three transforms preserves the number of rows and the
per-position identity of each row — region canonicalization and multi-core
disambiguation keep every row's `CName` and `R`, identifier canonicalization
keeps every row's `Region` and `R`; no row is added, removed or reordered. -/
theorem C10_row_preservation (data : List Row) :
    ((standardize_region_names data).length = data.length
      ∧ ∀ i : Nat,
          ((standardize_region_names data).getD i default).cname
              = (data.getD i default).cname
          ∧ ((standardize_region_names data).getD i default).r
              = (data.getD i default).r)
    ∧ ((fix_mult_core data).length = data.length
      ∧ ∀ i : Nat,
          ((fix_mult_core data).getD i default).cname = (data.getD i default).cname
          ∧ ((fix_mult_core data).getD i default).r = (data.getD i default).r)
    ∧ ((standardize_CNames data).length = data.length
      ∧ ∀ i : Nat,
          ((standardize_CNames data).getD i default).region
              = (data.getD i default).region
          ∧ ((standardize_CNames data).getD i default).r
              = (data.getD i default).r) :=
  ⟨⟨length_standardize_region_names data, fun i => getD_region_names_cname_r data i⟩,
    ⟨length_fix_mult_core data, fun i => fix_mult_core_cname_r data i⟩,
    ⟨length_standardize_CNames data, fun i => getD_CNames_region_r data i⟩⟩
